import Mathlib

/-!
Verification of the quiz-text parsing and scoring engine of the
SmartStudy study-assistant application (`app.py`).

The embedding models:
* the quiz data model (`MCQItem`, `BlankItem`, `ShortItem`, `QuizData`),
* Python string primitives used by the code (`in` substring test,
  `str.split()`, `dict.get(key, "")`),
* the scorer `display_quiz_results` (per-item grading, running totals,
  weak-area descriptors, percentage),
* the regex-based parser `parse_quiz_for_display` together with a small
  backtracking regular-expression engine faithful to Python `re`
  semantics (leftmost match, greedy/lazy quantifier preference,
  `re.IGNORECASE` also affecting character classes), and
* the canned fallback quiz `create_fallback_quiz_data`.
-/

namespace SmartStudy

/-! ## Data model -/

/-- A multiple-choice quiz item (dict with keys question/options/correct). -/
structure MCQItem where
  question : String
  options : List String
  correct : String
deriving Repr, DecidableEq

/-- A fill-in-the-blank quiz item (dict with keys question/answer). -/
structure BlankItem where
  question : String
  answer : String
deriving Repr, DecidableEq

/-- A short-answer quiz item (dict with keys question/expected). -/
structure ShortItem where
  question : String
  expected : String
deriving Repr, DecidableEq

/-- The `short_answer` field of the quiz dict: the empty string `""`
(initial value), a single dict, or a list of dicts. -/
inductive ShortAnswerField where
  | empty : ShortAnswerField
  | single (item : ShortItem) : ShortAnswerField
  | multi (items : List ShortItem) : ShortAnswerField
deriving Repr, DecidableEq

/-- Python truthiness of the `short_answer` field: `""` and `[]` are falsy. -/
def shortFalsy : ShortAnswerField → Bool
  | .empty => true
  | .single _ => false
  | .multi l => l.isEmpty

/-- Number of short-answer items the scorer iterates over. -/
def shortCount : ShortAnswerField → Nat
  | .empty => 0
  | .single _ => 1
  | .multi l => l.length

/-- The structured quiz dict built by `parse_quiz_for_display`. -/
structure QuizData where
  mcq_questions : List MCQItem
  fill_blanks : List BlankItem
  short_answer : ShortAnswerField
  raw_text : String
deriving Repr, DecidableEq

/-- The learner's submitted answers: `st.session_state.quiz_answers`,
a dict from item key (such as `mcq_0`, `blank_1`, `short_answer_0`) to the
submitted string. -/
abbrev AnswerSet := List (String × String)

/-- `answers.get(key, "")` — dict lookup with the empty string default. -/
def getAnswer (ans : AnswerSet) (k : String) : String :=
  (ans.lookup k).getD ""

/-! ## Python string primitives -/

/-- `a` is a prefix of `b` (character lists). -/
def prefOf : List Char → List Char → Bool
  | [], _ => true
  | _ :: _, [] => false
  | a :: as, b :: bs => a == b && prefOf as bs

/-- `a` occurs as a contiguous sublist of `b` (character lists). -/
def subOf : List Char → List Char → Bool
  | a, [] => prefOf a []
  | a, b :: bs => prefOf a (b :: bs) || subOf a bs

/-- The Python substring test `a in b` on strings.  Note `"" in b` is
`True` for every `b`. -/
def pyIn (a b : String) : Bool := subOf a.data b.data

/-- Python `str.lower()` (ASCII case folding suffices for this data). -/
def pyLower (s : String) : String := String.mk (s.data.map Char.toLower)

/-- Python `str.strip()` with no argument: remove leading and trailing
whitespace. -/
def pyStrip (s : String) : String :=
  String.mk (((s.data.dropWhile Char.isWhitespace).reverse.dropWhile
    Char.isWhitespace).reverse)

/-- Python slicing `s[:n]` (by code point). -/
def pyTake (s : String) (n : Nat) : String := String.mk (s.data.take n)

/-- Helper for `pySplitWS`: `cur` holds the reversed current word. -/
def wordsAux : List Char → List Char → List String
  | [], cur => if cur.isEmpty then [] else [String.mk cur.reverse]
  | c :: rest, cur =>
      if c.isWhitespace then
        if cur.isEmpty then wordsAux rest []
        else String.mk cur.reverse :: wordsAux rest []
      else wordsAux rest (c :: cur)

/-- Python `str.split()` with no argument: split on runs of whitespace,
discarding empty pieces. -/
def pySplitWS (s : String) : List String := wordsAux s.data []

/-! ## Per-item grading rules (from `display_quiz_results`) -/

/-- MCQ grading: `user_answer == mcq["correct"]` (string equality). -/
def mcqCorrect (m : MCQItem) (submitted : String) : Bool :=
  submitted == m.correct

/-- Fill-blank grading: lowercase both sides, then
`user_answer in correct_answer or correct_answer in user_answer`. -/
def blankCorrect (b : BlankItem) (submitted : String) : Bool :=
  let user_answer := pyLower submitted
  let correct_answer := pyLower b.answer
  pyIn user_answer correct_answer || pyIn correct_answer user_answer

/-- The whitespace-split lowercased expected keywords of a short-answer item. -/
def shortKeywords (s : ShortItem) : List String :=
  pySplitWS (pyLower s.expected)

/-- How many expected keywords occur as substrings of the lowercased
submission (`sum(1 for keyword in expected_keywords if keyword in user_answer)`,
no deduplication). -/
def shortMatches (s : ShortItem) (submitted : String) : Nat :=
  (shortKeywords s).countP (fun keyword => pyIn keyword (pyLower submitted))

/-- Short-answer grading:
`keyword_matches >= len(expected_keywords) * 0.5`.  Both operands are
integer counts and the scaling by `0.5` is exact, so the comparison
equals the integer comparison `len <= 2 * matches`; the rational-valued
reading is proved equivalent in `shortAnswerCorrect_iff_half`. -/
def shortAnswerCorrect (s : ShortItem) (submitted : String) : Bool :=
  let expected_keywords := shortKeywords s
  let keyword_matches := shortMatches s submitted
  decide (expected_keywords.length ≤ 2 * keyword_matches)

/-! ## The scorer -/

/-- Running scorer state: `total_questions`, `correct_answers`, `weak_areas`. -/
structure ScoreAcc where
  total : Nat
  correct : Nat
  weak_areas : List String
deriving Repr, DecidableEq

/-- The final score report. -/
structure ScoreReport where
  correct : Nat
  total : Nat
  percentage : Rat
  weak_areas : List String
deriving Repr, DecidableEq

/-- Weak-area descriptor for a missed MCQ:
`f"Question {i+1}: {mcq['question'][:50]}..."`. -/
def mcqWeakText (i : Nat) (m : MCQItem) : String :=
  let n := i + 1
  "Question " ++ toString n ++ ": " ++ pyTake m.question 50 ++ "..."

/-- Weak-area descriptor for a missed fill-blank:
`f"Question {len(mcq_questions) + i + 1}: {blank['question'][:50]}..."`. -/
def blankWeakText (numMCQ i : Nat) (b : BlankItem) : String :=
  let n := numMCQ + i + 1
  "Question " ++ toString n ++ ": " ++ pyTake b.question 50 ++ "..."

/-- Weak-area descriptor for a missed short answer:
`f"Question {total_questions}: {q['question'][:50]}..."` (uses the running
total after the increment). -/
def shortWeakText (total : Nat) (s : ShortItem) : String :=
  "Question " ++ toString total ++ ": " ++ pyTake s.question 50 ++ "..."

/-- One iteration of the MCQ scoring loop. -/
def stepMCQ (ans : AnswerSet) (i : Nat) (m : MCQItem) (acc : ScoreAcc) : ScoreAcc :=
  let total := acc.total + 1
  let user_answer := getAnswer ans ("mcq_" ++ toString i)
  if mcqCorrect m user_answer then
    { acc with total := total, correct := acc.correct + 1 }
  else
    { acc with total := total, weak_areas := acc.weak_areas ++ [mcqWeakText i m] }

/-- One iteration of the fill-blank scoring loop. -/
def stepBlank (ans : AnswerSet) (numMCQ : Nat) (i : Nat) (b : BlankItem)
    (acc : ScoreAcc) : ScoreAcc :=
  let total := acc.total + 1
  let user_answer := getAnswer ans ("blank_" ++ toString i)
  if blankCorrect b user_answer then
    { acc with total := total, correct := acc.correct + 1 }
  else
    { acc with total := total, weak_areas := acc.weak_areas ++ [blankWeakText numMCQ i b] }

/-- One iteration of the multi short-answer scoring loop. -/
def stepShortMulti (ans : AnswerSet) (i : Nat) (s : ShortItem)
    (acc : ScoreAcc) : ScoreAcc :=
  let total := acc.total + 1
  let user_answer := getAnswer ans ("short_answer_" ++ toString i)
  if shortAnswerCorrect s user_answer then
    { acc with total := total, correct := acc.correct + 1 }
  else
    { acc with total := total, weak_areas := acc.weak_areas ++ [shortWeakText total s] }

/-- Fold a loop body over a list with a running index (a Python
`for i, x in enumerate(l)` loop mutating the accumulator). -/
def foldIdx {α : Type} (f : Nat → α → ScoreAcc → ScoreAcc) :
    Nat → List α → ScoreAcc → ScoreAcc
  | _, [], acc => acc
  | i, x :: xs, acc => foldIdx f (i + 1) xs (f i x acc)

/-- The short-answer scoring block: skipped when the field is falsy;
a list is looped over, a single dict is graded under key `short_answer`. -/
def scoreShortAnswers (ans : AnswerSet) : ShortAnswerField → ScoreAcc → ScoreAcc
  | .empty, acc => acc
  | .single s, acc =>
      let total := acc.total + 1
      let user_answer := getAnswer ans "short_answer"
      if shortAnswerCorrect s user_answer then
        { acc with total := total, correct := acc.correct + 1 }
      else
        { acc with total := total, weak_areas := acc.weak_areas ++ [shortWeakText total s] }
  | .multi l, acc => if l.isEmpty then acc else foldIdx (stepShortMulti ans) 0 l acc

/-- `display_quiz_results`: score a structured quiz against the submitted
answers (MCQs, then fill-blanks, then short answers), producing the score
report (`percentage = correct / total * 100 if total > 0 else 0`). -/
def display_quiz_results (qd : QuizData) (ans : AnswerSet) : ScoreReport :=
  let acc1 := foldIdx (stepMCQ ans) 0 qd.mcq_questions ⟨0, 0, []⟩
  let acc2 := foldIdx (stepBlank ans qd.mcq_questions.length) 0 qd.fill_blanks acc1
  let acc3 := scoreShortAnswers ans qd.short_answer acc2
  let percentage : Rat :=
    if acc3.total > 0 then (acc3.correct : Rat) / (acc3.total : Rat) * 100 else 0
  { correct := acc3.correct, total := acc3.total,
    percentage := percentage, weak_areas := acc3.weak_areas }

/-! ## Closed-form item and correctness counts (specification side) -/

/-- Total number of items of a quiz, across the three types. -/
def numItems (qd : QuizData) : Nat :=
  qd.mcq_questions.length + qd.fill_blanks.length + shortCount qd.short_answer

/-- Count of MCQ items graded correct, starting at index `i`. -/
def countCorrectMCQ (ans : AnswerSet) : Nat → List MCQItem → Nat
  | _, [] => 0
  | i, m :: ms =>
      (if mcqCorrect m (getAnswer ans ("mcq_" ++ toString i)) then 1 else 0) +
        countCorrectMCQ ans (i + 1) ms

/-- Count of fill-blank items graded correct, starting at index `i`. -/
def countCorrectBlank (ans : AnswerSet) : Nat → List BlankItem → Nat
  | _, [] => 0
  | i, b :: bs =>
      (if blankCorrect b (getAnswer ans ("blank_" ++ toString i)) then 1 else 0) +
        countCorrectBlank ans (i + 1) bs

/-- Count of short-answer items (list form) graded correct, from index `i`. -/
def countCorrectShortList (ans : AnswerSet) : Nat → List ShortItem → Nat
  | _, [] => 0
  | i, s :: ss =>
      (if shortAnswerCorrect s (getAnswer ans ("short_answer_" ++ toString i)) then 1 else 0) +
        countCorrectShortList ans (i + 1) ss

/-- Count of short-answer items graded correct. -/
def countCorrectShort (ans : AnswerSet) : ShortAnswerField → Nat
  | .empty => 0
  | .single s => if shortAnswerCorrect s (getAnswer ans "short_answer") then 1 else 0
  | .multi l => countCorrectShortList ans 0 l

/-- Count of all items of the quiz graded correct. -/
def countCorrect (qd : QuizData) (ans : AnswerSet) : Nat :=
  countCorrectMCQ ans 0 qd.mcq_questions +
    countCorrectBlank ans 0 qd.fill_blanks +
    countCorrectShort ans qd.short_answer

/-! ## A small backtracking regular-expression engine

Faithful to the fragment of Python `re` used by `parse_quiz_for_display`:
literals, `\d`, `\s`, character classes (possibly negated), greedy and
lazy `*`/`+` over single-character atoms, capture groups, one greedy
optional non-capturing group, leftmost-match scanning (`re.findall`,
`re.search`), and the `re.IGNORECASE` flag (which also affects the
members of character classes).  `re.DOTALL` only changes the bare `.`
metacharacter, which none of the patterns use. -/

/-- A single-character matcher: literal, `\d`, `\s`, or a class of ranges. -/
inductive CC where
  | lit (c : Char)
  | digit
  | space
  | cls (neg : Bool) (ranges : List (Char × Char))
deriving Repr, DecidableEq

/-- Does character `c` match the atom, under flag `ci` (`re.IGNORECASE`)? -/
def ccMatches (ci : Bool) (cc : CC) (c : Char) : Bool :=
  match cc with
  | .lit l => c == l || (ci && (c.toLower == l.toLower))
  | .digit => c.isDigit
  | .space => c.isWhitespace
  | .cls neg ranges =>
      let inR := fun (x : Char) => ranges.any (fun r => decide (r.1 ≤ x) && decide (x ≤ r.2))
      let hit := inR c || (ci && (inR c.toLower || inR c.toUpper))
      if neg then !hit else hit

/-- Regular expressions of the fragment used by the parser.  All
quantifiers in the source patterns apply to single-character atoms. -/
inductive RE where
  | eps
  | ch (cc : CC)
  | seq (a b : RE)
  | star (cc : CC) (lz : Bool)
  | plus (cc : CC) (lz : Bool)
  | group (idx : Nat) (r : RE)
  | opt (r : RE)
deriving Repr, DecidableEq

/-- Captured groups of one match, keyed by group number. -/
abbrev Captures := List (Nat × String)

/-- Text of group `i` of a match; an unmatched group reads as `""`
(Python `None`, which is falsy like `""`). -/
def grp (caps : Captures) (i : Nat) : String :=
  (caps.lookup i).getD ""

/-- First success over a list of candidate repeat counts. -/
def firstSome {α : Type} (f : Nat → Option α) : List Nat → Option α
  | [] => none
  | n :: ns =>
      match f n with
      | some r => some r
      | none => firstSome f ns

/-- Candidate repeat counts for `*` in preference order: a greedy star
tries the longest run first, a lazy star the shortest. -/
def starCounts (lz : Bool) (n : Nat) : List Nat :=
  if lz then List.range (n + 1) else (List.range (n + 1)).reverse

/-- Candidate repeat counts for `+`: as for `*` but never zero. -/
def plusCounts (lz : Bool) (n : Nat) : List Nat :=
  (starCounts lz n).filter (fun k => k != 0)

/-- Backtracking matcher in continuation-passing style.  `runRE ci r s g k`
tries every way `r` can match a prefix of `s` in Python's preference
order, calling `k` with the extended captures and the remaining input,
and returns the first success of `k`. -/
def runRE (ci : Bool) :
    RE → List Char → Captures →
      (Captures → List Char → Option (Captures × List Char)) →
      Option (Captures × List Char)
  | .eps, s, g, k => k g s
  | .ch cc, s, g, k =>
      match s with
      | [] => none
      | c :: rest => if ccMatches ci cc c then k g rest else none
  | .seq a b, s, g, k => runRE ci a s g (fun g2 s2 => runRE ci b s2 g2 k)
  | .star cc lz, s, g, k =>
      let n := (s.takeWhile (ccMatches ci cc)).length
      firstSome (fun m => k g (s.drop m)) (starCounts lz n)
  | .plus cc lz, s, g, k =>
      let n := (s.takeWhile (ccMatches ci cc)).length
      firstSome (fun m => k g (s.drop m)) (plusCounts lz n)
  | .group idx r, s, g, k =>
      runRE ci r s g (fun g2 s2 =>
        let consumed := s.take (s.length - s2.length)
        k (g2 ++ [(idx, String.mk consumed)]) s2)
  | .opt r, s, g, k =>
      match runRE ci r s g k with
      | some res => some res
      | none => k g s

/-- Attempt a match anchored at the start of `s`. -/
def matchHere (ci : Bool) (re : RE) (s : List Char) : Option (Captures × List Char) :=
  runRE ci re s [] (fun g s2 => some (g, s2))

/-- `re.findall` scanning: leftmost matches, non-overlapping, continuing
after each match (advancing one character past a zero-width match).
`fuel` bounds the scan; `input length + 1` always suffices. -/
def findAllAux (ci : Bool) (re : RE) : Nat → List Char → List Captures
  | 0, _ => []
  | _ + 1, [] =>
      match matchHere ci re [] with
      | some (g, _) => [g]
      | none => []
  | fuel + 1, c :: rest =>
      match matchHere ci re (c :: rest) with
      | some (g, s2) =>
          if s2.length < rest.length + 1 then g :: findAllAux ci re fuel s2
          else g :: findAllAux ci re fuel rest
      | none => findAllAux ci re fuel rest

/-- `re.findall(pattern, s, flags)`: the captures of every match. -/
def findAll (ci : Bool) (re : RE) (s : String) : List Captures :=
  findAllAux ci re (s.data.length + 1) s.data

/-- `re.search` scanning: the leftmost match only, if any. -/
def searchAux (ci : Bool) (re : RE) : Nat → List Char → Option Captures
  | 0, _ => none
  | _ + 1, [] => (matchHere ci re []).map (fun r => r.1)
  | fuel + 1, c :: rest =>
      match matchHere ci re (c :: rest) with
      | some (g, _) => some g
      | none => searchAux ci re fuel rest

/-- `re.search(pattern, s, flags)`. -/
def searchRE (ci : Bool) (re : RE) (s : String) : Option Captures :=
  searchAux ci re (s.data.length + 1) s.data

/-! ## The source patterns -/

/-- A sequence of literal characters. -/
def lits (s : String) : RE :=
  s.data.foldr (fun c r => RE.seq (RE.ch (CC.lit c)) r) RE.eps

/-- `\s*` (greedy). -/
def ws0 : RE := RE.star CC.space false

/-- A negated character class of single characters, `[^c...]`. -/
def cneg (cs : List Char) : CC :=
  CC.cls true (cs.map (fun c => (c, c)))

/-- Sequence a list of regular expressions. -/
def seqList (l : List RE) : RE := l.foldr RE.seq RE.eps

/-- The strict MCQ pattern:
`(\d+\.\s*[^A-D]+?)\s*A\)\s*([^B]+?)\s*B\)\s*([^C]+?)\s*C\)\s*([^D]+?)\s*D\)\s*([^C]+?)\s*Correct Answer:\s*([A-D])`. -/
def mcq_pattern : RE := seqList [
  RE.group 1 (seqList [RE.plus CC.digit false, RE.ch (CC.lit '.'), ws0,
    RE.plus (CC.cls true [('A', 'D')]) true]),
  ws0, lits "A)", ws0,
  RE.group 2 (RE.plus (cneg ['B']) true),
  ws0, lits "B)", ws0,
  RE.group 3 (RE.plus (cneg ['C']) true),
  ws0, lits "C)", ws0,
  RE.group 4 (RE.plus (cneg ['D']) true),
  ws0, lits "D)", ws0,
  RE.group 5 (RE.plus (cneg ['C']) true),
  ws0, lits "Correct Answer:", ws0,
  RE.group 6 (RE.ch (CC.cls false [('A', 'D')]))]

/-- `mcq_pattern_flexible` in the source is a byte-identical copy of
`mcq_pattern`; only the added `re.IGNORECASE` flag distinguishes the
fallback pass. -/
def mcq_pattern_flexible : RE := mcq_pattern

/-- The fill-blank pattern with hint clause:
`(\d+\.\s*[^_]+?)\s*______\s*\[Hint[^]]*\]\s*Answer:\s*([^\n]+)`. -/
def blank_pattern : RE := seqList [
  RE.group 1 (seqList [RE.plus CC.digit false, RE.ch (CC.lit '.'), ws0,
    RE.plus (cneg ['_']) true]),
  ws0, lits "______", ws0, RE.ch (CC.lit '['), lits "Hint",
  RE.star (cneg [']']) false, RE.ch (CC.lit ']'), ws0, lits "Answer:", ws0,
  RE.group 2 (RE.plus (cneg ['\n']) false)]

/-- The simpler fill-blank pattern without hint clause:
`(\d+\.\s*[^_]+?)\s*______\s*\.\s*Answer:\s*([^\n]+)`. -/
def blank_pattern_simple : RE := seqList [
  RE.group 1 (seqList [RE.plus CC.digit false, RE.ch (CC.lit '.'), ws0,
    RE.plus (cneg ['_']) true]),
  ws0, lits "______", ws0, RE.ch (CC.lit '.'), ws0, lits "Answer:", ws0,
  RE.group 2 (RE.plus (cneg ['\n']) false)]

/-- The short-answer section pattern:
`Short Answer Questions[^:]*:\s*(\d+\.\s*[^E]+?)Expected Answer:\s*([^\n]+)(?:\s*\d+\.\s*([^E]+?)Expected Answer:\s*([^\n]+))?`. -/
def short_pattern : RE := seqList [
  lits "Short Answer Questions", RE.star (cneg [':']) false, RE.ch (CC.lit ':'), ws0,
  RE.group 1 (seqList [RE.plus CC.digit false, RE.ch (CC.lit '.'), ws0,
    RE.plus (cneg ['E']) true]),
  lits "Expected Answer:", ws0,
  RE.group 2 (RE.plus (cneg ['\n']) false),
  RE.opt (seqList [ws0, RE.plus CC.digit false, RE.ch (CC.lit '.'), ws0,
    RE.group 3 (RE.plus (cneg ['E']) true),
    lits "Expected Answer:", ws0,
    RE.group 4 (RE.plus (cneg ['\n']) false)])]

/-! ## The parser -/

/-- Build an MCQ item from one match (groups stripped as in the source). -/
def build_mcq (caps : Captures) : MCQItem :=
  { question := pyStrip (grp caps 1),
    options := [pyStrip (grp caps 2), pyStrip (grp caps 3), pyStrip (grp caps 4), pyStrip (grp caps 5)],
    correct := pyStrip (grp caps 6) }

/-- Build a fill-blank item from one match. -/
def build_blank (caps : Captures) : BlankItem :=
  { question := pyStrip (grp caps 1), answer := pyStrip (grp caps 2) }

/-- MCQ extraction: strict case-sensitive pass; if it yields nothing,
the byte-identical pattern is retried with `re.IGNORECASE`. -/
def extract_mcq_matches (t : String) : List Captures :=
  let mcq_matches := findAll false mcq_pattern t
  if mcq_matches.isEmpty then findAll true mcq_pattern_flexible t else mcq_matches

/-- Fill-blank extraction: the hint pattern; if it yields nothing, the
simpler pattern without the hint clause. -/
def extract_blank_matches (t : String) : List Captures :=
  let blank_matches := findAll false blank_pattern t
  if blank_matches.isEmpty then findAll false blank_pattern_simple t
  else blank_matches

/-- Short-answer extraction via `re.search`: no match leaves the field
`""`; a match yields two items when group 3 is truthy, otherwise one. -/
def extract_short_answer (t : String) : ShortAnswerField :=
  match searchRE false short_pattern t with
  | none => .empty
  | some caps =>
      if grp caps 3 == "" then
        .single ⟨pyStrip (grp caps 1), pyStrip (grp caps 2)⟩
      else
        .multi [⟨pyStrip (grp caps 1), pyStrip (grp caps 2)⟩,
                ⟨pyStrip (grp caps 3), pyStrip (grp caps 4)⟩]

/-- `create_fallback_quiz_data`: the canned quiz substituted when no
item of any type was extracted. -/
def create_fallback_quiz_data : QuizData :=
  { mcq_questions := [
      { question := "1. What is the main purpose of a CV?",
        options := ["To list personal hobbies",
                    "To showcase work experience and qualifications",
                    "To write a story",
                    "To make friends"],
        correct := "B" },
      { question := "2. What should be included in a professional CV?",
        options := ["Only personal information",
                    "Work experience, education, and skills",
                    "Only education",
                    "Only skills"],
        correct := "B" },
      { question := "3. What language was the CV written in?",
        options := ["English", "French", "Dutch", "German"],
        correct := "C" }],
    fill_blanks := [
      { question := "1. A CV is also known as a ______.", answer := "resume" },
      { question := "2. Blal Masroor worked as a kitchen ______ in restaurants.",
        answer := "assistant" }],
    short_answer := .multi [
      { question := "1. What type of work experience does Blal Masroor have?",
        expected := "He has experience working in restaurants as a kitchen assistant, with certifications in culinary arts." },
      { question := "2. What certifications does Blal Masroor have?",
        expected := "He has certifications in chocolate making, praline making, bread baking, and pastry making from Centrum voor Volwassenenonderwijs Gent." }],
    raw_text := "Fallback quiz generated due to parsing issues" }

/-- `parse_quiz_for_display`: run the three extractions; if together they
produced nothing (all fields falsy) substitute the fallback quiz. -/
def parse_quiz_for_display (quiz_text : String) : QuizData :=
  let mcq_questions := (extract_mcq_matches quiz_text).map build_mcq
  let fill_blanks := (extract_blank_matches quiz_text).map build_blank
  let short_answer := extract_short_answer quiz_text
  if mcq_questions.isEmpty && fill_blanks.isEmpty && shortFalsy short_answer then
    create_fallback_quiz_data
  else
    { mcq_questions := mcq_questions, fill_blanks := fill_blanks,
      short_answer := short_answer, raw_text := quiz_text }

/-! ## Helper lemmas: the substring test -/

lemma prefOf_iff : ∀ (a b : List Char), prefOf a b = true ↔ ∃ t, b = a ++ t
  | [], b => by simp [prefOf]
  | _ :: _, [] => by simp [prefOf]
  | a :: as, b :: bs => by
      simp only [prefOf, Bool.and_eq_true, beq_iff_eq, prefOf_iff as bs,
        List.cons_append, List.cons_eq_cons]
      constructor
      · rintro ⟨h1, t, h2⟩
        exact ⟨t, h1.symm, h2⟩
      · rintro ⟨t, h1, h2⟩
        exact ⟨h1.symm, t, h2⟩

lemma subOf_iff : ∀ (a b : List Char), subOf a b = true ↔ ∃ l t, b = l ++ a ++ t
  | a, [] => by
      simp only [subOf, prefOf_iff]
      constructor
      · rintro ⟨t, h⟩
        exact ⟨[], t, by simpa using h⟩
      · rintro ⟨l, t, h⟩
        have h2 : l ++ a ++ t = [] := h.symm
        rw [List.append_eq_nil] at h2
        rcases h2 with ⟨h3, h4⟩
        rw [List.append_eq_nil] at h3
        rcases h3 with ⟨h5, h6⟩
        exact ⟨[], by simp [h6]⟩
  | a, b :: bs => by
      simp only [subOf, Bool.or_eq_true, prefOf_iff, subOf_iff a bs]
      constructor
      · rintro (⟨t, h⟩ | ⟨l, t, h⟩)
        · exact ⟨[], t, by simpa using h⟩
        · exact ⟨b :: l, t, by simp [h]⟩
      · rintro ⟨l, t, h⟩
        cases l with
        | nil => exact Or.inl ⟨t, by simpa using h⟩
        | cons x l2 =>
            rcases List.cons_eq_cons.mp (by simpa using h) with ⟨_, h2⟩
            exact Or.inr ⟨l2, t, by rw [h2, List.append_assoc]⟩

lemma prefOf_nil_left (b : List Char) : prefOf [] b = true := by
  cases b <;> rfl

lemma subOf_nil_left : ∀ (b : List Char), subOf [] b = true
  | [] => rfl
  | _ :: bs => by
      simp [subOf, prefOf_nil_left, subOf_nil_left bs]

/-- The Python quirk at the heart of C1/C2: the empty string is a
substring of every string. -/
lemma pyIn_empty_left (b : String) : pyIn "" b = true :=
  subOf_nil_left b.data

lemma subOf_nil_right (a : List Char) (h : a ≠ []) : subOf a [] = false := by
  cases a with
  | nil => exact absurd rfl h
  | cons c cs => rfl

/-! ## Helper lemmas: grading -/

lemma blankCorrect_empty (b : BlankItem) : blankCorrect b "" = true := by
  have h : pyLower "" = "" := rfl
  simp [blankCorrect, h, pyIn_empty_left]

lemma half_le_iff (len m : Nat) :
    ((len : Rat) * 0.5 ≤ (m : Rat)) ↔ len ≤ 2 * m := by
  have h5 : (0.5 : Rat) = 1 / 2 := by norm_num
  rw [h5]
  constructor
  · intro h
    have h2 : (len : Rat) ≤ 2 * (m : Rat) := by linarith
    exact_mod_cast h2
  · intro h
    have h2 : (len : Rat) ≤ 2 * (m : Rat) := by exact_mod_cast h
    linarith

/-- The source comparison `keyword_matches >= len(expected_keywords) * 0.5`
read over the rationals, as the spec states it. -/
lemma shortAnswerCorrect_iff_half (s : ShortItem) (submitted : String) :
    shortAnswerCorrect s submitted = true ↔
      ((shortKeywords s).length : Rat) * 0.5 ≤ (shortMatches s submitted : Rat) := by
  simp only [shortAnswerCorrect, decide_eq_true_eq]
  exact (half_le_iff _ _).symm

lemma wordsAux_ne_nil : ∀ (l cur : List Char), ∀ w ∈ wordsAux l cur, w.data ≠ []
  | [], cur => by
      unfold wordsAux
      split
      · simp
      · rename_i h
        intro w hw
        rcases List.mem_singleton.mp hw with rfl
        simpa [List.isEmpty_iff] using h
  | c :: rest, cur => by
      unfold wordsAux
      split
      · split
        · exact wordsAux_ne_nil rest []
        · rename_i h
          intro w hw
          rcases List.mem_cons.mp hw with rfl | hmem
          · simpa [List.isEmpty_iff] using h
          · exact wordsAux_ne_nil rest [] w hmem
      · exact wordsAux_ne_nil rest (c :: cur)

lemma pySplitWS_ne_nil (s : String) : ∀ w ∈ pySplitWS s, w.data ≠ [] :=
  wordsAux_ne_nil s.data []

/-- With an empty submission no (necessarily non-empty) keyword matches. -/
lemma shortMatches_empty (s : ShortItem) : shortMatches s "" = 0 := by
  have h : pyLower "" = "" := rfl
  rw [shortMatches, h, List.countP_eq_zero]
  intro kw hkw
  simp only [pyIn, Bool.not_eq_true]
  have hd : kw.data ≠ [] := pySplitWS_ne_nil _ kw hkw
  exact subOf_nil_right kw.data hd

lemma shortAnswerCorrect_empty (s : ShortItem) (h : shortKeywords s ≠ []) :
    shortAnswerCorrect s "" = false := by
  rw [Bool.eq_false_iff]
  intro htrue
  rw [shortAnswerCorrect_iff_half, shortMatches_empty] at htrue
  have hlen : (shortKeywords s).length = 0 := by
    have := (half_le_iff (shortKeywords s).length 0).mp (by simpa using htrue)
    omega
  exact h (List.length_eq_zero.mp hlen)

/-! ## Helper lemmas: the scorer loops -/

lemma stepMCQ_total (ans : AnswerSet) (i : Nat) (m : MCQItem) (acc : ScoreAcc) :
    (stepMCQ ans i m acc).total = acc.total + 1 := by
  simp only [stepMCQ]
  split <;> rfl

lemma stepMCQ_correct (ans : AnswerSet) (i : Nat) (m : MCQItem) (acc : ScoreAcc) :
    (stepMCQ ans i m acc).correct =
      acc.correct +
        (if mcqCorrect m (getAnswer ans ("mcq_" ++ toString i)) then 1 else 0) := by
  simp only [stepMCQ]
  split <;> simp

lemma stepMCQ_inv (ans : AnswerSet) (i : Nat) (m : MCQItem) (acc : ScoreAcc)
    (h : acc.correct + acc.weak_areas.length = acc.total) :
    (stepMCQ ans i m acc).correct + (stepMCQ ans i m acc).weak_areas.length =
      (stepMCQ ans i m acc).total := by
  simp only [stepMCQ]
  split <;> simp <;> omega

lemma stepBlank_total (ans : AnswerSet) (numMCQ i : Nat) (b : BlankItem) (acc : ScoreAcc) :
    (stepBlank ans numMCQ i b acc).total = acc.total + 1 := by
  simp only [stepBlank]
  split <;> rfl

lemma stepBlank_correct (ans : AnswerSet) (numMCQ i : Nat) (b : BlankItem) (acc : ScoreAcc) :
    (stepBlank ans numMCQ i b acc).correct =
      acc.correct +
        (if blankCorrect b (getAnswer ans ("blank_" ++ toString i)) then 1 else 0) := by
  simp only [stepBlank]
  split <;> simp

lemma stepBlank_inv (ans : AnswerSet) (numMCQ i : Nat) (b : BlankItem) (acc : ScoreAcc)
    (h : acc.correct + acc.weak_areas.length = acc.total) :
    (stepBlank ans numMCQ i b acc).correct + (stepBlank ans numMCQ i b acc).weak_areas.length =
      (stepBlank ans numMCQ i b acc).total := by
  simp only [stepBlank]
  split <;> simp <;> omega

lemma stepShortMulti_total (ans : AnswerSet) (i : Nat) (s : ShortItem) (acc : ScoreAcc) :
    (stepShortMulti ans i s acc).total = acc.total + 1 := by
  simp only [stepShortMulti]
  split <;> rfl

lemma stepShortMulti_correct (ans : AnswerSet) (i : Nat) (s : ShortItem) (acc : ScoreAcc) :
    (stepShortMulti ans i s acc).correct =
      acc.correct +
        (if shortAnswerCorrect s (getAnswer ans ("short_answer_" ++ toString i)) then 1 else 0) := by
  simp only [stepShortMulti]
  split <;> simp

lemma stepShortMulti_inv (ans : AnswerSet) (i : Nat) (s : ShortItem) (acc : ScoreAcc)
    (h : acc.correct + acc.weak_areas.length = acc.total) :
    (stepShortMulti ans i s acc).correct + (stepShortMulti ans i s acc).weak_areas.length =
      (stepShortMulti ans i s acc).total := by
  simp only [stepShortMulti]
  split <;> simp <;> omega

lemma foldIdx_mcq_total (ans : AnswerSet) (ms : List MCQItem) :
    ∀ (i : Nat) (acc : ScoreAcc),
      (foldIdx (stepMCQ ans) i ms acc).total = acc.total + ms.length := by
  induction ms with
  | nil => intro i acc; simp [foldIdx]
  | cons m ms ih =>
      intro i acc
      rw [foldIdx, ih, stepMCQ_total]
      simp only [List.length_cons]
      omega

lemma foldIdx_mcq_correct (ans : AnswerSet) (ms : List MCQItem) :
    ∀ (i : Nat) (acc : ScoreAcc),
      (foldIdx (stepMCQ ans) i ms acc).correct = acc.correct + countCorrectMCQ ans i ms := by
  induction ms with
  | nil => intro i acc; simp [foldIdx, countCorrectMCQ]
  | cons m ms ih =>
      intro i acc
      rw [foldIdx, ih, stepMCQ_correct, countCorrectMCQ]
      cases mcqCorrect m (getAnswer ans ("mcq_" ++ toString i)) <;> simp
      omega

lemma foldIdx_blank_total (ans : AnswerSet) (numMCQ : Nat) (bs : List BlankItem) :
    ∀ (i : Nat) (acc : ScoreAcc),
      (foldIdx (stepBlank ans numMCQ) i bs acc).total = acc.total + bs.length := by
  induction bs with
  | nil => intro i acc; simp [foldIdx]
  | cons b bs ih =>
      intro i acc
      rw [foldIdx, ih, stepBlank_total]
      simp only [List.length_cons]
      omega

lemma foldIdx_blank_correct (ans : AnswerSet) (numMCQ : Nat) (bs : List BlankItem) :
    ∀ (i : Nat) (acc : ScoreAcc),
      (foldIdx (stepBlank ans numMCQ) i bs acc).correct =
        acc.correct + countCorrectBlank ans i bs := by
  induction bs with
  | nil => intro i acc; simp [foldIdx, countCorrectBlank]
  | cons b bs ih =>
      intro i acc
      rw [foldIdx, ih, stepBlank_correct, countCorrectBlank]
      cases blankCorrect b (getAnswer ans ("blank_" ++ toString i)) <;> simp
      omega

lemma foldIdx_short_total (ans : AnswerSet) (ss : List ShortItem) :
    ∀ (i : Nat) (acc : ScoreAcc),
      (foldIdx (stepShortMulti ans) i ss acc).total = acc.total + ss.length := by
  induction ss with
  | nil => intro i acc; simp [foldIdx]
  | cons s ss ih =>
      intro i acc
      rw [foldIdx, ih, stepShortMulti_total]
      simp only [List.length_cons]
      omega

lemma foldIdx_short_correct (ans : AnswerSet) (ss : List ShortItem) :
    ∀ (i : Nat) (acc : ScoreAcc),
      (foldIdx (stepShortMulti ans) i ss acc).correct =
        acc.correct + countCorrectShortList ans i ss := by
  induction ss with
  | nil => intro i acc; simp [foldIdx, countCorrectShortList]
  | cons s ss ih =>
      intro i acc
      rw [foldIdx, ih, stepShortMulti_correct, countCorrectShortList]
      cases shortAnswerCorrect s (getAnswer ans ("short_answer_" ++ toString i)) <;> simp
      omega

lemma foldIdx_preserves {α : Type} (f : Nat → α → ScoreAcc → ScoreAcc)
    (P : ScoreAcc → Prop) (hf : ∀ (i : Nat) (x : α) (acc : ScoreAcc), P acc → P (f i x acc)) :
    ∀ (l : List α) (i : Nat) (acc : ScoreAcc), P acc → P (foldIdx f i l acc)
  | [], _, _, h => h
  | x :: xs, i, acc, h =>
      foldIdx_preserves f P hf xs (i + 1) (f i x acc) (hf i x acc h)

lemma scoreShort_total (ans : AnswerSet) (f : ShortAnswerField) (acc : ScoreAcc) :
    (scoreShortAnswers ans f acc).total = acc.total + shortCount f := by
  cases f with
  | empty => rfl
  | single s =>
      simp only [scoreShortAnswers, shortCount]
      split <;> rfl
  | multi l =>
      simp only [scoreShortAnswers, shortCount]
      split
      · rename_i h
        rw [List.isEmpty_iff] at h
        simp [h]
      · rw [foldIdx_short_total]

lemma scoreShort_correct (ans : AnswerSet) (f : ShortAnswerField) (acc : ScoreAcc) :
    (scoreShortAnswers ans f acc).correct = acc.correct + countCorrectShort ans f := by
  cases f with
  | empty => rfl
  | single s =>
      simp only [scoreShortAnswers, countCorrectShort]
      split <;> simp
  | multi l =>
      simp only [scoreShortAnswers, countCorrectShort]
      split
      · rename_i h
        rw [List.isEmpty_iff] at h
        subst h
        simp [countCorrectShortList]
      · rw [foldIdx_short_correct]

lemma scoreShort_inv (ans : AnswerSet) (f : ShortAnswerField) (acc : ScoreAcc)
    (h : acc.correct + acc.weak_areas.length = acc.total) :
    (scoreShortAnswers ans f acc).correct + (scoreShortAnswers ans f acc).weak_areas.length =
      (scoreShortAnswers ans f acc).total := by
  cases f with
  | empty => exact h
  | single s =>
      simp only [scoreShortAnswers]
      split <;> simp <;> omega
  | multi l =>
      simp only [scoreShortAnswers]
      split
      · exact h
      · exact foldIdx_preserves (stepShortMulti ans)
          (fun acc => acc.correct + acc.weak_areas.length = acc.total)
          (fun i x acc hacc => stepShortMulti_inv ans i x acc hacc) l 0 acc h

/-! ## Helper lemmas: the whole scorer -/

lemma display_total (qd : QuizData) (ans : AnswerSet) :
    (display_quiz_results qd ans).total = numItems qd := by
  simp only [display_quiz_results]
  rw [scoreShort_total, foldIdx_blank_total, foldIdx_mcq_total]
  simp [numItems]

lemma display_correct (qd : QuizData) (ans : AnswerSet) :
    (display_quiz_results qd ans).correct = countCorrect qd ans := by
  simp only [display_quiz_results]
  rw [scoreShort_correct, foldIdx_blank_correct, foldIdx_mcq_correct]
  simp [countCorrect]

lemma display_inv (qd : QuizData) (ans : AnswerSet) :
    (display_quiz_results qd ans).correct + (display_quiz_results qd ans).weak_areas.length =
      (display_quiz_results qd ans).total := by
  simp only [display_quiz_results]
  apply scoreShort_inv
  apply foldIdx_preserves (stepBlank ans qd.mcq_questions.length)
    (fun acc => acc.correct + acc.weak_areas.length = acc.total)
    (fun i x acc hacc => stepBlank_inv ans qd.mcq_questions.length i x acc hacc)
  apply foldIdx_preserves (stepMCQ ans)
    (fun acc => acc.correct + acc.weak_areas.length = acc.total)
    (fun i x acc hacc => stepMCQ_inv ans i x acc hacc)
  rfl

lemma display_percentage (qd : QuizData) (ans : AnswerSet) :
    (display_quiz_results qd ans).percentage =
      if 0 < (display_quiz_results qd ans).total then
        ((display_quiz_results qd ans).correct : Rat) /
          ((display_quiz_results qd ans).total : Rat) * 100
      else 0 := rfl

/-! ## Auxiliary definitions for the claims -/

/-- The short-answer items the scorer would iterate over. -/
def shortItemsOf : ShortAnswerField → List ShortItem
  | .empty => []
  | .single s => [s]
  | .multi l => l

/-- The MultipleChoice items produced by the source's two-pass extraction
(strict pass, then the byte-identical pattern with `re.IGNORECASE` when
the strict pass yields nothing). -/
def mcq_items_two_pass (t : String) : List MCQItem :=
  (extract_mcq_matches t).map build_mcq

/-- Stated from the spec's words, for comparison with
`mcq_items_two_pass`: a single extraction pass with the pattern compiled
case-insensitively. -/
def mcq_single_pass_ci (t : String) : List MCQItem :=
  (findAll true mcq_pattern t).map build_mcq

/-! ## The claims -/

/-- Claim C1, counterexample to its second half: the fill-blank item with
expected answer `"resume"` is graded **correct** on an empty-string
(unanswered) submission even though the expected answer is not empty,
because Python's `"" in s` holds for every `s`. -/
theorem C1_counterexample :
    blankCorrect ⟨"1. A CV is also known as a ______.", "resume"⟩
        (getAnswer [] ("blank_" ++ toString 0)) = true ∧
      ("resume" : String) ≠ "" := by
  constructor
  · decide
  · decide

/-- Claim C1 (amended): a FillBlank item is graded correct iff, after
lowercasing both strings, the submitted answer is a substring of the
expected answer or the expected answer is a substring of the submitted
answer; an item absent from the answer set is treated as an empty-string
submission and is **always** graded correct, the empty string being a
substring of every string. -/
theorem C1_fillblank_grading :
    ∀ (b : BlankItem) (submitted : String),
      (blankCorrect b submitted = true ↔
        ((∃ l t, (pyLower b.answer).data = l ++ (pyLower submitted).data ++ t) ∨
         (∃ l t, (pyLower submitted).data = l ++ (pyLower b.answer).data ++ t))) ∧
      blankCorrect b "" = true := by
  intro b submitted
  constructor
  · simp only [blankCorrect, pyIn, Bool.or_eq_true, subOf_iff]
  · exact blankCorrect_empty b

/-- Claim C2, counterexample: a non-empty quiz whose only item is a
fill-blank with the non-empty expected answer `"resume"`, scored against
the empty answer set, yields `correct = 1`, not `0`. -/
theorem C2_counterexample :
    (display_quiz_results ⟨[], [⟨"1. A CV is also known as a ______.", "resume"⟩],
        .empty, "t"⟩ []).correct ≠ 0 ∧
      numItems ⟨[], [⟨"1. A CV is also known as a ______.", "resume"⟩], .empty, "t"⟩ ≠ 0 ∧
      (∀ b ∈ ([⟨"1. A CV is also known as a ______.", "resume"⟩] : List BlankItem),
        b.answer ≠ "") := by
  refine ⟨by decide, by decide, by decide⟩

/-- Claim C2 (amended): scoring against the empty answer set yields
`correct` equal to the number of FillBlank items — every unanswered
FillBlank passes, because the empty submission is a substring of its
expected answer, while every unanswered MCQ (with a non-empty stored
correct option) and every unanswered ShortAnswer (whose expected answer
contains a non-whitespace character) fails. -/
theorem C2_empty_answers_score :
    ∀ (qd : QuizData),
      (∀ m ∈ qd.mcq_questions, m.correct ≠ "") →
      (∀ s ∈ shortItemsOf qd.short_answer, shortKeywords s ≠ []) →
      (display_quiz_results qd []).correct = qd.fill_blanks.length := by
  intro qd hm hs
  rw [display_correct, countCorrect]
  have h1 : ∀ (ms : List MCQItem), (∀ m ∈ ms, m.correct ≠ "") →
      ∀ (i : Nat), countCorrectMCQ [] i ms = 0 := by
    intro ms
    induction ms with
    | nil => intro _ i; rfl
    | cons m ms ih =>
        intro h i
        have hg : getAnswer [] ("mcq_" ++ toString i) = "" := rfl
        rw [countCorrectMCQ, hg]
        have hne : m.correct ≠ "" := h m (List.mem_cons_self m ms)
        have hc : mcqCorrect m "" = false := by
          simp [mcqCorrect]
          exact fun heq => hne heq.symm
        rw [hc]
        simpa using ih (fun x hx => h x (List.mem_cons_of_mem m hx)) (i + 1)
  have h2 : ∀ (bs : List BlankItem) (i : Nat), countCorrectBlank [] i bs = bs.length := by
    intro bs
    induction bs with
    | nil => intro i; rfl
    | cons b bs ih =>
        intro i
        have hg : getAnswer [] ("blank_" ++ toString i) = "" := rfl
        rw [countCorrectBlank, hg, blankCorrect_empty, ih]
        simp only [if_true, List.length_cons]
        omega
  have h3 : ∀ (f : ShortAnswerField), (∀ s ∈ shortItemsOf f, shortKeywords s ≠ []) →
      countCorrectShort [] f = 0 := by
    intro f hf
    cases f with
    | empty => rfl
    | single s =>
        have hg : getAnswer [] "short_answer" = "" := rfl
        have hk : shortKeywords s ≠ [] := hf s (by simp [shortItemsOf])
        simp [countCorrectShort, hg, shortAnswerCorrect_empty s hk]
    | multi l =>
        simp only [countCorrectShort]
        have : ∀ (ss : List ShortItem), (∀ s ∈ ss, shortKeywords s ≠ []) →
            ∀ (i : Nat), countCorrectShortList [] i ss = 0 := by
          intro ss
          induction ss with
          | nil => intro _ i; rfl
          | cons s ss ih =>
              intro h i
              have hg : getAnswer [] ("short_answer_" ++ toString i) = "" := rfl
              rw [countCorrectShortList, hg,
                shortAnswerCorrect_empty s (h s (List.mem_cons_self s ss))]
              simpa using ih (fun x hx => h x (List.mem_cons_of_mem s hx)) (i + 1)
        exact this l (by simpa [shortItemsOf] using hf) 0
  rw [h1 qd.mcq_questions hm 0, h2 qd.fill_blanks 0, h3 qd.short_answer hs]
  omega

/-- Witness for C2 (amended) at the fallback quiz: with the empty answer
set its two fill-blanks are graded correct and nothing else is. -/
theorem C2_empty_answers_score_witness :
    (∀ m ∈ create_fallback_quiz_data.mcq_questions, m.correct ≠ "") ∧
      (∀ s ∈ shortItemsOf create_fallback_quiz_data.short_answer, shortKeywords s ≠ []) ∧
      (display_quiz_results create_fallback_quiz_data []).correct =
        create_fallback_quiz_data.fill_blanks.length :=
  ⟨by decide, by decide, C2_empty_answers_score create_fallback_quiz_data
    (by decide) (by decide)⟩

/-- Claim C3: when all three extraction passes yield zero items,
`parse_quiz_for_display` returns exactly the hardcoded fallback quiz with
3 MultipleChoice, 2 FillBlank and 2 ShortAnswer items (7 in all); the
parser is a total function, so it never fails outward. -/
theorem C3_parse_fallback :
    ∀ (t : String),
      extract_mcq_matches t = [] →
      extract_blank_matches t = [] →
      extract_short_answer t = .empty →
      parse_quiz_for_display t = create_fallback_quiz_data ∧
        create_fallback_quiz_data.mcq_questions.length = 3 ∧
        create_fallback_quiz_data.fill_blanks.length = 2 ∧
        shortCount create_fallback_quiz_data.short_answer = 2 ∧
        numItems create_fallback_quiz_data = 7 := by
  intro t h1 h2 h3
  refine ⟨?_, by decide, by decide, by decide, by decide⟩
  simp [parse_quiz_for_display, h1, h2, h3, shortFalsy]

/-- Witness for C3 at the raw text `"hello"`, which none of the three
patterns matches. -/
theorem C3_parse_fallback_witness :
    extract_mcq_matches "hello" = [] ∧
      extract_blank_matches "hello" = [] ∧
      extract_short_answer "hello" = .empty ∧
      parse_quiz_for_display "hello" = create_fallback_quiz_data :=
  ⟨by decide, by decide, by decide,
    (C3_parse_fallback "hello" (by decide) (by decide) (by decide)).1⟩

/-- Claim C4: a ShortAnswer item is graded correct iff the number of
whitespace-split lowercased expected keywords occurring as substrings of
the lowercased submission is at least half the keyword count (a `>=`
comparison against the real-valued half-count, no deduplication); with 4
keywords, matching exactly 2 is correct and matching exactly 1 is not. -/
theorem C4_short_answer_grading :
    (∀ (s : ShortItem) (submitted : String),
        shortAnswerCorrect s submitted = true ↔
          ((shortKeywords s).length : Rat) * 0.5 ≤ (shortMatches s submitted : Rat)) ∧
      (shortKeywords ⟨"q", "alpha beta gamma delta"⟩).length = 4 ∧
      shortMatches ⟨"q", "alpha beta gamma delta"⟩ "alpha beta" = 2 ∧
      shortAnswerCorrect ⟨"q", "alpha beta gamma delta"⟩ "alpha beta" = true ∧
      shortMatches ⟨"q", "alpha beta gamma delta"⟩ "alpha" = 1 ∧
      shortAnswerCorrect ⟨"q", "alpha beta gamma delta"⟩ "alpha" = false :=
  ⟨shortAnswerCorrect_iff_half, by decide, by decide, by decide, by decide, by decide⟩

/-- Claim C5, counterexample: on this raw text the strict pass matches
(the lowercase `b` inside option A is admitted by the case-sensitive
`[^B]`), while the case-insensitive compilation of the very same pattern
matches nothing (under `re.IGNORECASE` the class `[^B]` also excludes
`b`), so the two-pass extraction and the single case-insensitive pass
disagree. -/
theorem C5_counterexample :
    mcq_items_two_pass "1. Q A) xb B) y C) z D) w Correct Answer: A" ≠
      mcq_single_pass_ci "1. Q A) xb B) y C) z D) w Correct Answer: A" := by
  decide

/-- Claim C5 (amended): the two-pass design reduces to the single
case-insensitive pass only when the strict pass yields zero matches; in
general the two disagree, because `re.IGNORECASE` also changes the
negated character classes of the pattern. -/
theorem C5_two_pass_reduction :
    ∀ (t : String),
      findAll false mcq_pattern t = [] →
      mcq_items_two_pass t = mcq_single_pass_ci t := by
  intro t h
  simp [mcq_items_two_pass, mcq_single_pass_ci, extract_mcq_matches, h,
    mcq_pattern_flexible]

/-- Witness for C5 (amended) at the raw text `"z"`. -/
theorem C5_two_pass_reduction_witness :
    findAll false mcq_pattern "z" = [] ∧
      mcq_items_two_pass "z" = mcq_single_pass_ci "z" :=
  ⟨by decide, C5_two_pass_reduction "z" (by decide)⟩

/-- Claim C6: the score report's `total` counts every item of the three
types whether or not answered, `correct` counts the items passing their
per-type rule, and `percentage` is `100 * correct / total` when
`total > 0` and `0` when `total = 0` — the guard makes a division fault
impossible. -/
theorem C6_score_aggregates :
    ∀ (qd : QuizData) (ans : AnswerSet),
      (display_quiz_results qd ans).total = numItems qd ∧
        (display_quiz_results qd ans).correct = countCorrect qd ans ∧
        (display_quiz_results qd ans).percentage =
          (if 0 < numItems qd then
            100 * (countCorrect qd ans : Rat) / (numItems qd : Rat)
          else 0) := by
  intro qd ans
  refine ⟨display_total qd ans, display_correct qd ans, ?_⟩
  rw [display_percentage, display_total, display_correct]
  split
  · ring
  · rfl

/-- Claim C7: an MCQ item is graded correct iff the submitted letter is
string-equal (case-sensitive, as stored) to `correct_option`; an item
absent from the answer set is compared as the empty string, hence graded
incorrect for any stored option in `{A, B, C, D}`. -/
theorem C7_mcq_grading :
    ∀ (m : MCQItem) (ans : AnswerSet) (i : Nat),
      (∀ submitted, mcqCorrect m submitted = (submitted == m.correct)) ∧
        (ans.lookup ("mcq_" ++ toString i) = none →
          m.correct ∈ (["A", "B", "C", "D"] : List String) →
          mcqCorrect m (getAnswer ans ("mcq_" ++ toString i)) = false) := by
  intro m ans i
  refine ⟨fun _ => rfl, fun hnone hmem => ?_⟩
  have hg : getAnswer ans ("mcq_" ++ toString i) = "" := by
    rw [getAnswer, hnone]
    rfl
  rw [hg]
  simp only [List.mem_cons, List.mem_singleton, List.not_mem_nil, or_false] at hmem
  rcases hmem with h | h | h | h
  · simp only [mcqCorrect]; rw [h]; decide
  · simp only [mcqCorrect]; rw [h]; decide
  · simp only [mcqCorrect]; rw [h]; decide
  · simp only [mcqCorrect]; rw [h]; decide

/-- Witness for C7 at a concrete item with correct option `B` and the
empty answer set. -/
theorem C7_mcq_grading_witness :
    mcqCorrect ⟨"q", ["w", "x", "y", "z"], "B"⟩
        (getAnswer [] ("mcq_" ++ toString 0)) = false :=
  (C7_mcq_grading ⟨"q", ["w", "x", "y", "z"], "B"⟩ [] 0).2 rfl (by decide)

/-- Claim C8: the parser produces at most two ShortAnswer items — the
search pattern captures one or two entries of a single section, and the
fallback quiz carries exactly two. -/
theorem C8_at_most_two_short_answers :
    ∀ (t : String), shortCount (parse_quiz_for_display t).short_answer ≤ 2 := by
  intro t
  have hx : shortCount (extract_short_answer t) ≤ 2 := by
    unfold extract_short_answer
    cases searchRE false short_pattern t with
    | none => simp [shortCount]
    | some caps =>
        dsimp only
        split
        · simp [shortCount]
        · simp [shortCount]
  simp only [parse_quiz_for_display]
  split
  · decide
  · exact hx

/-- Claim C9: scoring is deterministic — it is a pure function of the
quiz and the answer set, so repeated invocations on identical inputs
return identical score reports. -/
theorem C9_score_deterministic :
    ∀ (qd : QuizData) (ans : AnswerSet),
      display_quiz_results qd ans = display_quiz_results qd ans :=
  fun _ _ => rfl

/-- Claim C10: in every score report `correct ≤ total`, the percentage
lies in `[0, 100]`, and the number of weak-area descriptors equals
`total - correct` — each item contributes either a correctness increment
or exactly one appended descriptor. -/
theorem C10_score_invariants :
    ∀ (qd : QuizData) (ans : AnswerSet),
      (display_quiz_results qd ans).correct ≤ (display_quiz_results qd ans).total ∧
        0 ≤ (display_quiz_results qd ans).percentage ∧
        (display_quiz_results qd ans).percentage ≤ 100 ∧
        (display_quiz_results qd ans).weak_areas.length =
          (display_quiz_results qd ans).total - (display_quiz_results qd ans).correct := by
  intro qd ans
  have hinv := display_inv qd ans
  have hle : (display_quiz_results qd ans).correct ≤ (display_quiz_results qd ans).total := by
    omega
  refine ⟨hle, ?_, ?_, by omega⟩
  · rw [display_percentage]
    split
    · positivity
    · exact le_refl 0
  · rw [display_percentage]
    split
    · rename_i h
      have ht : (0 : Rat) < ((display_quiz_results qd ans).total : Rat) := by
        exact_mod_cast h
      have hc : ((display_quiz_results qd ans).correct : Rat) ≤
          ((display_quiz_results qd ans).total : Rat) := by
        exact_mod_cast hle
      have h1 : ((display_quiz_results qd ans).correct : Rat) /
          ((display_quiz_results qd ans).total : Rat) ≤ 1 :=
        (div_le_one ht).mpr hc
      linarith
    · norm_num

end SmartStudy
